import Mathlib

/-
Verification of the femur measurement engine in
src/gias2/musculoskeletal/fw_femur_measurements.py (gias2).

The geometric kernel (_Plane3D and its distance / projection routines) is
embedded over an arbitrary linear ordered field; rational instantiations are
used where exact computation is wanted and real instantiations where the
source takes square roots.  Point arrays are lists of 3-vectors.  External
collaborators that are not part of the repository sources (scipy's fmin
minimizer, geoprimitives' Line3D / LineElement3D, copy.deepcopy, pickle)
are modelled from the specification and marked as such in doc comments.
-/

set_option maxHeartbeats 1000000

/-- A 3-vector with components in an arbitrary coordinate field; the embedding
of the 3-element scipy arrays used throughout fw_femur_measurements.py. -/
structure Vec3 (α : Type) where
  x : α
  y : α
  z : α
deriving DecidableEq

instance {α : Type} [Add α] : Add (Vec3 α) :=
  ⟨fun u v => ⟨u.x + v.x, u.y + v.y, u.z + v.z⟩⟩

instance {α : Type} [Sub α] : Sub (Vec3 α) :=
  ⟨fun u v => ⟨u.x - v.x, u.y - v.y, u.z - v.z⟩⟩

instance {α : Type} [Mul α] : SMul α (Vec3 α) :=
  ⟨fun s v => ⟨s * v.x, s * v.y, s * v.z⟩⟩

@[simp] theorem Vec3.add_x {α : Type} [Add α] (u v : Vec3 α) : (u + v).x = u.x + v.x := rfl

@[simp] theorem Vec3.add_y {α : Type} [Add α] (u v : Vec3 α) : (u + v).y = u.y + v.y := rfl

@[simp] theorem Vec3.add_z {α : Type} [Add α] (u v : Vec3 α) : (u + v).z = u.z + v.z := rfl

@[simp] theorem Vec3.sub_x {α : Type} [Sub α] (u v : Vec3 α) : (u - v).x = u.x - v.x := rfl

@[simp] theorem Vec3.sub_y {α : Type} [Sub α] (u v : Vec3 α) : (u - v).y = u.y - v.y := rfl

@[simp] theorem Vec3.sub_z {α : Type} [Sub α] (u v : Vec3 α) : (u - v).z = u.z - v.z := rfl

@[simp] theorem Vec3.smul_x {α : Type} [Mul α] (s : α) (v : Vec3 α) : (s • v).x = s * v.x := rfl

@[simp] theorem Vec3.smul_y {α : Type} [Mul α] (s : α) (v : Vec3 α) : (s • v).y = s * v.y := rfl

@[simp] theorem Vec3.smul_z {α : Type} [Mul α] (s : α) (v : Vec3 α) : (s • v).z = s * v.z := rfl

theorem Vec3.eq_iff {α : Type} (u v : Vec3 α) :
    u = v ↔ u.x = v.x ∧ u.y = v.y ∧ u.z = v.z := by
  cases u
  cases v
  simp [Vec3.mk.injEq]

/-- Componentwise sum of squares: `(scipy.array(v)**2.0).sum()` in `_mag`. -/
def Vec3.normSq {α : Type} [Add α] [Mul α] (v : Vec3 α) : α :=
  v.x * v.x + v.y * v.y + v.z * v.z

/-- Dot product of two 3-vectors. -/
def Vec3.dot {α : Type} [Add α] [Mul α] (u v : Vec3 α) : α :=
  u.x * v.x + u.y * v.y + u.z * v.z

/-- Componentwise division of a vector by a scalar: `scipy.divide(v, s)`. -/
def Vec3.vdiv {α : Type} [Div α] (v : Vec3 α) (s : α) : Vec3 α :=
  ⟨v.x / s, v.y / s, v.z / s⟩

/-- Embedding of `_Plane3D` (fw_femur_measurements.py lines 33-81): the plane
`a x + b y + c z + d = 0`, with the defining normal `N` and point `P` kept as
in the Python object. -/
structure Plane3D (α : Type) where
  a : α
  b : α
  c : α
  d : α
  N : Vec3 α
  P : Vec3 α

/-- `_Plane3D.__init__` with the `NP` keyword argument:
`a, b, c = N` and `d = -a*P[0] - b*P[1] - c*P[2]`. -/
def Plane3D.mkNP {α : Type} [Ring α] (N P : Vec3 α) : Plane3D α :=
  ⟨N.x, N.y, N.z, -(N.x * P.x) - N.y * P.y - N.z * P.z, N, P⟩

/-- The value `a*p[0] + b*p[1] + c*p[2] + d` of the plane equation at `p`. -/
def Plane3D.eval {α : Type} [Ring α] (pl : Plane3D α) (p : Vec3 α) : α :=
  pl.a * p.x + pl.b * p.y + pl.c * p.z + pl.d

/-- The quantity `D` computed in `_Plane3D.distanceToPoint(s)`: the plane
equation value divided by `a**2 + b**2 + c**2` (the squared, not the plain,
norm of the stored normal — faithful to the source, lines 50-51 and 59-60). -/
def Plane3D.signedD {α : Type} [LinearOrderedField α] (pl : Plane3D α) (p : Vec3 α) : α :=
  (pl.a * p.x + pl.b * p.y + pl.c * p.z + pl.d) / (pl.a * pl.a + pl.b * pl.b + pl.c * pl.c)

/-- `_Plane3D.distanceToPoint` (lines 48-55): returns `(abs(D), p - N*D)`. -/
def Plane3D.distanceToPoint {α : Type} [LinearOrderedField α] (pl : Plane3D α) (p : Vec3 α) :
    α × Vec3 α :=
  (|pl.signedD p|, p - pl.signedD p • pl.N)

/-- `_Plane3D.distanceToPoints` (lines 57-66), the vectorized form: the lists
of `abs(D)` values and of `p - N*D[:,newaxis]` rows. -/
def Plane3D.distanceToPoints {α : Type} [LinearOrderedField α] (pl : Plane3D α)
    (ps : List (Vec3 α)) : List α × List (Vec3 α) :=
  (ps.map fun p => (pl.distanceToPoint p).1, ps.map fun p => (pl.distanceToPoint p).2)

/-- The index/point pairs selected by `scipy.where(distances < maxDist)[0]` in
`_Plane3D.projectClosePoints` (line 78). -/
def Plane3D.closePairs {α : Type} [LinearOrderedField α] (pl : Plane3D α)
    (ps : List (Vec3 α)) (maxDist : α) : List (ℕ × Vec3 α) :=
  ps.enum.filter fun ip => decide ((pl.distanceToPoint ip.2).1 < maxDist)

/-- `_Plane3D.projectClosePoints` (lines 68-81): the projections of the points
lying strictly within `maxDist` of the plane, and their indices. -/
def Plane3D.projectClosePoints {α : Type} [LinearOrderedField α] (pl : Plane3D α)
    (ps : List (Vec3 α)) (maxDist : α) : List (Vec3 α) × List ℕ :=
  ((pl.closePairs ps maxDist).map fun ip => (pl.distanceToPoint ip.2).2,
   (pl.closePairs ps maxDist).map Prod.fst)

/-- `NeckMinXSectionFit.planeProjectionMaxDist` (line 818): the fixed
acceptance distance of the cross-section footprint. -/
def planeProjectionMaxDist {α : Type} [LinearOrderedField α] : α := 1

/- ------------------------------------------------------------------ -/
/- Helper lemmas about the plane primitives.                           -/
/- ------------------------------------------------------------------ -/

theorem Plane3D.eval_mkNP {α : Type} [CommRing α] (N P p : Vec3 α) :
    (Plane3D.mkNP N P).eval p = Vec3.dot N (p - P) := by
  simp only [Plane3D.mkNP, Plane3D.eval, Vec3.dot, Vec3.sub_x, Vec3.sub_y, Vec3.sub_z]
  ring

theorem Plane3D.signedD_mkNP {α : Type} [LinearOrderedField α] (N P p : Vec3 α) :
    (Plane3D.mkNP N P).signedD p = Vec3.dot N (p - P) / Vec3.normSq N := by
  simp only [Plane3D.mkNP, Plane3D.signedD, Vec3.dot, Vec3.normSq, Vec3.sub_x, Vec3.sub_y,
    Vec3.sub_z]
  congr 1
  ring

theorem Plane3D.eval_project {α : Type} [LinearOrderedField α] (N P p : Vec3 α)
    (hN : Vec3.normSq N ≠ 0) :
    (Plane3D.mkNP N P).eval (p - (Plane3D.mkNP N P).signedD p • (Plane3D.mkNP N P).N) = 0 := by
  have hNsq : N.x * N.x + N.y * N.y + N.z * N.z ≠ 0 := by
    simpa [Vec3.normSq] using hN
  simp only [Plane3D.mkNP, Plane3D.eval, Plane3D.signedD, Vec3.sub_x, Vec3.sub_y, Vec3.sub_z,
    Vec3.smul_x, Vec3.smul_y, Vec3.smul_z]
  field_simp
  ring

theorem Plane3D.signedD_eq_zero_of_eval_zero {α : Type} [LinearOrderedField α]
    (pl : Plane3D α) (p : Vec3 α) (h : pl.eval p = 0) : pl.signedD p = 0 := by
  have : pl.a * p.x + pl.b * p.y + pl.c * p.z + pl.d = 0 := h
  simp [Plane3D.signedD, this]

theorem Plane3D.project_eq_self_of_signedD_zero {α : Type} [LinearOrderedField α]
    (pl : Plane3D α) (p : Vec3 α) (h : pl.signedD p = 0) :
    (pl.distanceToPoint p).2 = p := by
  simp [Plane3D.distanceToPoint, h, Vec3.eq_iff]

theorem Plane3D.mem_proj_output {α : Type} [LinearOrderedField α] (N P : Vec3 α)
    (ps : List (Vec3 α)) (maxDist : α) (q : Vec3 α)
    (hq : q ∈ ((Plane3D.mkNP N P).projectClosePoints ps maxDist).1)
    (hN : Vec3.normSq N ≠ 0) :
    (Plane3D.mkNP N P).signedD q = 0 := by
  simp only [Plane3D.projectClosePoints, List.mem_map] at hq
  obtain ⟨ip, _, hip⟩ := hq
  subst hip
  apply Plane3D.signedD_eq_zero_of_eval_zero
  have := Plane3D.eval_project N P ip.2 hN
  simpa [Plane3D.mkNP, Plane3D.distanceToPoint] using this

theorem Plane3D.closePairs_all {α : Type} [LinearOrderedField α] (pl : Plane3D α)
    (ps : List (Vec3 α)) (maxDist : α)
    (h : ∀ p ∈ ps, (pl.distanceToPoint p).1 < maxDist) :
    pl.closePairs ps maxDist = ps.enum := by
  apply List.filter_eq_self.mpr
  intro ip hip
  simpa [decide_eq_true_eq] using h ip.2 (List.snd_mem_of_mem_enum hip)

theorem Plane3D.proj_id_of_on_plane {α : Type} [LinearOrderedField α] (pl : Plane3D α)
    (ps : List (Vec3 α)) (maxDist : α)
    (h0 : ∀ p ∈ ps, pl.signedD p = 0) (hpos : 0 < maxDist) :
    pl.projectClosePoints ps maxDist = (ps, List.range ps.length) := by
  have hall : ∀ p ∈ ps, (pl.distanceToPoint p).1 < maxDist := by
    intro p hp
    show |pl.signedD p| < maxDist
    simp [h0 p hp, hpos]
  refine Prod.ext ?_ ?_
  · simp only [Plane3D.projectClosePoints, Plane3D.closePairs_all pl ps maxDist hall]
    rw [List.map_congr_left (g := Prod.snd), List.enum_map_snd]
    intro ip hip
    exact pl.project_eq_self_of_signedD_zero ip.2 (h0 ip.2 (List.snd_mem_of_mem_enum hip))
  · simp only [Plane3D.projectClosePoints, Plane3D.closePairs_all pl ps maxDist hall]
    exact List.enum_map_fst ps

/-- C7: `projectClosePoints` is idempotent.  Re-projecting the already
projected footprint with the same plane and the same positive `maxDist`
selects every point (the returned index list is `range` of the footprint
length, i.e. all of them) and returns the points unchanged. -/
theorem projectClosePoints_idempotent (N P : Vec3 ℚ) (pts : List (Vec3 ℚ)) (maxDist : ℚ)
    (hN : Vec3.normSq N ≠ 0) (hpos : 0 < maxDist) :
    (Plane3D.mkNP N P).projectClosePoints
        ((Plane3D.mkNP N P).projectClosePoints pts maxDist).1 maxDist
      = (((Plane3D.mkNP N P).projectClosePoints pts maxDist).1,
         List.range ((Plane3D.mkNP N P).projectClosePoints pts maxDist).1.length) := by
  apply Plane3D.proj_id_of_on_plane _ _ _ _ hpos
  intro q hq
  exact Plane3D.mem_proj_output N P pts maxDist q hq hN

/-- Witness for C7 at a concrete plane, data set, and `maxDist = 1`. -/
theorem projectClosePoints_idempotent_witness :
    Vec3.normSq (⟨0, 0, 1⟩ : Vec3 ℚ) ≠ 0 ∧ (0 : ℚ) < 1 ∧
    (Plane3D.mkNP (⟨0, 0, 1⟩ : Vec3 ℚ) ⟨0, 0, 0⟩).projectClosePoints
        ((Plane3D.mkNP (⟨0, 0, 1⟩ : Vec3 ℚ) ⟨0, 0, 0⟩).projectClosePoints
          [⟨1, 0, 1/2⟩, ⟨0, 0, 5⟩] 1).1 1
      = (((Plane3D.mkNP (⟨0, 0, 1⟩ : Vec3 ℚ) ⟨0, 0, 0⟩).projectClosePoints
          [⟨1, 0, 1/2⟩, ⟨0, 0, 5⟩] 1).1,
         List.range ((Plane3D.mkNP (⟨0, 0, 1⟩ : Vec3 ℚ) ⟨0, 0, 0⟩).projectClosePoints
          [⟨1, 0, 1/2⟩, ⟨0, 0, 5⟩] 1).1.length) :=
  ⟨by norm_num [Vec3.normSq], by norm_num,
   projectClosePoints_idempotent ⟨0, 0, 1⟩ ⟨0, 0, 0⟩ [⟨1, 0, 1/2⟩, ⟨0, 0, 5⟩] 1
     (by norm_num [Vec3.normSq]) (by norm_num)⟩

/- ------------------------------------------------------------------ -/
/- Euclidean notions used to compare against the claims.               -/
/- ------------------------------------------------------------------ -/

/-- The mathematical orthogonal projection of `p` onto the plane through `P`
with normal `N` (the notion named by the specification). -/
noncomputable def orthProject (N P p : Vec3 ℝ) : Vec3 ℝ :=
  p - (Vec3.dot N (p - P) / Vec3.normSq N) • N

/-- Euclidean distance between two points. -/
noncomputable def euclidDist (p q : Vec3 ℝ) : ℝ := Real.sqrt (Vec3.normSq (p - q))

/-- Euclidean (unsigned) distance from a point to the plane through `P` with
normal `N`: `|N . (p - P)| / ||N||`. -/
noncomputable def euclidDistToPlane (N P p : Vec3 ℝ) : ℝ :=
  |Vec3.dot N (p - P)| / Real.sqrt (Vec3.normSq N)

theorem Vec3.normSq_smul (c : ℝ) (v : Vec3 ℝ) :
    Vec3.normSq (c • v) = c ^ 2 * Vec3.normSq v := by
  simp only [Vec3.normSq, Vec3.smul_x, Vec3.smul_y, Vec3.smul_z]
  ring

theorem Vec3.sub_sub_self (p w : Vec3 ℝ) : p - (p - w) = w := by
  simp [Vec3.eq_iff]

theorem euclidDist_orthProject (N P p : Vec3 ℝ) (hN : 0 < Vec3.normSq N) :
    euclidDist p (orthProject N P p) = euclidDistToPlane N P p := by
  have hs : 0 < Real.sqrt (Vec3.normSq N) := Real.sqrt_pos.mpr hN
  have hss : Real.sqrt (Vec3.normSq N) * Real.sqrt (Vec3.normSq N) = Vec3.normSq N :=
    Real.mul_self_sqrt hN.le
  have h1 : euclidDist p (orthProject N P p)
      = |Vec3.dot N (p - P) / Vec3.normSq N| * Real.sqrt (Vec3.normSq N) := by
    rw [euclidDist, orthProject, Vec3.sub_sub_self, Vec3.normSq_smul,
      Real.sqrt_mul (sq_nonneg _), Real.sqrt_sq_eq_abs]
  rw [h1, euclidDistToPlane, abs_div, abs_of_pos hN]
  rw [eq_div_iff (ne_of_gt hs), mul_assoc, hss, div_mul_cancel₀]
  exact ne_of_gt hN

/-- C6 (amended): `distanceToPoints` returns, for every point, the absolute
value `|N . (p - P)| / ||N||^2` of the scaled plane distance (the Euclidean
point-plane distance divided by `||N||`, never a signed value), together with
the true orthogonal projection of the point onto the plane. -/
theorem distanceToPoints_abs_scaled (N P : Vec3 ℝ) (ps : List (Vec3 ℝ))
    (hN : 0 < Vec3.normSq N) :
    ((Plane3D.mkNP N P).distanceToPoints ps).1
        = ps.map (fun p => euclidDistToPlane N P p / Real.sqrt (Vec3.normSq N)) ∧
    ((Plane3D.mkNP N P).distanceToPoints ps).2 = ps.map (orthProject N P) ∧
    ∀ p, euclidDist p (orthProject N P p) = euclidDistToPlane N P p := by
  have hs : 0 < Real.sqrt (Vec3.normSq N) := Real.sqrt_pos.mpr hN
  have hss : Real.sqrt (Vec3.normSq N) * Real.sqrt (Vec3.normSq N) = Vec3.normSq N :=
    Real.mul_self_sqrt hN.le
  refine ⟨?_, ?_, fun p => euclidDist_orthProject N P p hN⟩
  · apply List.map_congr_left
    intro p _
    rw [Plane3D.distanceToPoint, Plane3D.signedD_mkNP, euclidDistToPlane, abs_div,
      abs_of_pos hN, ← hss]
    field_simp
  · apply List.map_congr_left
    intro p _
    rw [Plane3D.distanceToPoint, Plane3D.signedD_mkNP, orthProject, Plane3D.mkNP]

/-- Witness for C6 (amended) at a concrete non-unit normal. -/
theorem distanceToPoints_abs_scaled_witness :
    (0 : ℝ) < Vec3.normSq (⟨0, 0, 2⟩ : Vec3 ℝ) ∧
    (((Plane3D.mkNP (⟨0, 0, 2⟩ : Vec3 ℝ) ⟨0, 0, 0⟩).distanceToPoints [⟨0, 0, -1⟩]).1
        = [⟨0, 0, -1⟩].map
            (fun p => euclidDistToPlane ⟨0, 0, 2⟩ ⟨0, 0, 0⟩ p /
              Real.sqrt (Vec3.normSq ⟨0, 0, 2⟩)) ∧
     ((Plane3D.mkNP (⟨0, 0, 2⟩ : Vec3 ℝ) ⟨0, 0, 0⟩).distanceToPoints [⟨0, 0, -1⟩]).2
        = [⟨0, 0, -1⟩].map (orthProject ⟨0, 0, 2⟩ ⟨0, 0, 0⟩) ∧
     ∀ p, euclidDist p (orthProject ⟨0, 0, 2⟩ ⟨0, 0, 0⟩ p)
        = euclidDistToPlane ⟨0, 0, 2⟩ ⟨0, 0, 0⟩ p) :=
  ⟨by norm_num [Vec3.normSq],
   distanceToPoints_abs_scaled ⟨0, 0, 2⟩ ⟨0, 0, 0⟩ [⟨0, 0, -1⟩]
     (by norm_num [Vec3.normSq])⟩

/-- Counterexample to C6 as stated: for the plane with (non-unit) normal
`(0, 0, 2)` through the origin and the point `(0, 0, -1)`, the first return
of `distanceToPoints` is `[1/2]`, not the signed Euclidean point-plane
distance `[-1]`. -/
theorem distanceToPoints_not_signed_euclid :
    ((Plane3D.mkNP (⟨0, 0, 2⟩ : Vec3 ℝ) ⟨0, 0, 0⟩).distanceToPoints [⟨0, 0, -1⟩]).1
      ≠ [Vec3.dot ⟨0, 0, 2⟩ ((⟨0, 0, -1⟩ : Vec3 ℝ) - ⟨0, 0, 0⟩) /
          Real.sqrt (Vec3.normSq ⟨0, 0, 2⟩)] := by
  have h4 : Real.sqrt (Vec3.normSq (⟨0, 0, 2⟩ : Vec3 ℝ)) = 2 := by
    have : Vec3.normSq (⟨0, 0, 2⟩ : Vec3 ℝ) = 2 ^ 2 := by norm_num [Vec3.normSq]
    rw [this, Real.sqrt_sq (by norm_num)]
  simp only [Plane3D.distanceToPoints, Plane3D.distanceToPoint, Plane3D.signedD,
    Plane3D.mkNP, Vec3.dot, List.map_cons, List.map_nil, h4]
  intro h
  have h1 := List.head_eq_of_cons_eq h
  norm_num [Vec3.sub_x, Vec3.sub_y, Vec3.sub_z] at h1
  have h2 : (0 : ℝ) ≤ |(1 : ℝ) / 2| := abs_nonneg _
  rw [h1] at h2
  norm_num at h2

/-- The acceptance test applied by `projectClosePoints` to a single point,
rephrased in Euclidean terms: the source's `distances < maxDist` comparison
holds iff the Euclidean point-plane distance is below `maxDist * ||N||`. -/
theorem footprint_pred_iff (N P p : Vec3 ℝ) (maxDist : ℝ) (hN : 0 < Vec3.normSq N) :
    ((Plane3D.mkNP N P).distanceToPoint p).1 < maxDist
      ↔ euclidDistToPlane N P p < maxDist * Real.sqrt (Vec3.normSq N) := by
  have hs : 0 < Real.sqrt (Vec3.normSq N) := Real.sqrt_pos.mpr hN
  have hss : Real.sqrt (Vec3.normSq N) * Real.sqrt (Vec3.normSq N) = Vec3.normSq N :=
    Real.mul_self_sqrt hN.le
  show |(Plane3D.mkNP N P).signedD p| < maxDist ↔ _
  rw [Plane3D.signedD_mkNP, abs_div, abs_of_pos hN, euclidDistToPlane,
    div_lt_iff₀ hN, div_lt_iff₀ hs, mul_assoc, hss]

/-- C4 (amended): a data point enters the cross-section footprint iff the
quantity `|N . (p - P)| / ||N||^2` is below `maxDist`, equivalently iff its
Euclidean distance to the plane is below `maxDist * ||N||`; only for unit
normals does this coincide with a Euclidean threshold of `maxDist` itself. -/
theorem neck_footprint_acceptance (N P : Vec3 ℝ) (pts : List (Vec3 ℝ)) (maxDist : ℝ)
    (i : ℕ) (p : Vec3 ℝ) (hN : 0 < Vec3.normSq N) (hip : (i, p) ∈ pts.enum) :
    (i ∈ ((Plane3D.mkNP N P).projectClosePoints pts maxDist).2
      ↔ euclidDistToPlane N P p < maxDist * Real.sqrt (Vec3.normSq N)) := by
  rw [← footprint_pred_iff N P p maxDist hN]
  simp only [Plane3D.projectClosePoints, Plane3D.closePairs, List.mem_map, List.mem_filter]
  constructor
  · rintro ⟨⟨j, q⟩, ⟨hjq, hpred⟩, hfst⟩
    have hj : j = i := hfst
    subst hj
    have hq : q = p := by
      have h1 := List.mem_enum_iff_getElem?.mp hjq
      have h2 := List.mem_enum_iff_getElem?.mp hip
      simp only at h1 h2
      rw [h1] at h2
      exact Option.some_inj.mp h2
    subst hq
    simpa [decide_eq_true_eq] using hpred
  · intro hlt
    exact ⟨(i, p), ⟨hip, by simpa [decide_eq_true_eq] using hlt⟩, rfl⟩

/-- Witness for C4 (amended) at a concrete unit-normal plane and point. -/
theorem neck_footprint_acceptance_witness :
    (0 : ℝ) < Vec3.normSq (⟨0, 0, 1⟩ : Vec3 ℝ) ∧
    ((0 : ℕ), (⟨0, 0, 1/2⟩ : Vec3 ℝ)) ∈ (([⟨0, 0, 1/2⟩] : List (Vec3 ℝ)).enum) ∧
    ((0 : ℕ) ∈ ((Plane3D.mkNP (⟨0, 0, 1⟩ : Vec3 ℝ) ⟨0, 0, 0⟩).projectClosePoints
          [⟨0, 0, 1/2⟩] 1).2
      ↔ euclidDistToPlane ⟨0, 0, 1⟩ ⟨0, 0, 0⟩ ⟨0, 0, 1/2⟩
          < 1 * Real.sqrt (Vec3.normSq ⟨0, 0, 1⟩)) :=
  ⟨by norm_num [Vec3.normSq],
   List.mem_enum_iff_getElem?.mpr (by simp),
   neck_footprint_acceptance ⟨0, 0, 1⟩ ⟨0, 0, 0⟩ [⟨0, 0, 1/2⟩] 1 0 ⟨0, 0, 1/2⟩
     (by norm_num [Vec3.normSq]) (List.mem_enum_iff_getElem?.mpr (by simp))⟩

/-- Counterexample to C4 as stated: for the non-unit normal `(2, 0, 0)`
through the origin, the point `(3/2, 0, 0)` is selected into the footprint
by `projectClosePoints` with the fixed threshold `planeProjectionMaxDist = 1`
although its Euclidean distance to the plane is `3/2 > 1`. -/
theorem neck_footprint_acceptance_cex :
    (0 : ℕ) ∈ ((Plane3D.mkNP (⟨2, 0, 0⟩ : Vec3 ℝ) ⟨0, 0, 0⟩).projectClosePoints
        [⟨3/2, 0, 0⟩] planeProjectionMaxDist).2 ∧
    planeProjectionMaxDist < euclidDistToPlane ⟨2, 0, 0⟩ ⟨0, 0, 0⟩ ⟨3/2, 0, 0⟩ := by
  constructor
  · have hpred : ((Plane3D.mkNP (⟨2, 0, 0⟩ : Vec3 ℝ) ⟨0, 0, 0⟩).distanceToPoint
        ⟨3/2, 0, 0⟩).1 < planeProjectionMaxDist := by
      show |(Plane3D.mkNP (⟨2, 0, 0⟩ : Vec3 ℝ) ⟨0, 0, 0⟩).signedD ⟨3/2, 0, 0⟩| < _
      rw [abs_lt]
      norm_num [Plane3D.signedD, Plane3D.mkNP, planeProjectionMaxDist]
    simp only [Plane3D.projectClosePoints, Plane3D.closePairs, List.mem_map, List.mem_filter]
    exact ⟨(0, ⟨3/2, 0, 0⟩),
      ⟨List.mem_enum_iff_getElem?.mpr (by simp),
       by simpa [decide_eq_true_eq] using hpred⟩, rfl⟩
  · have h2 : Real.sqrt (Vec3.normSq (⟨2, 0, 0⟩ : Vec3 ℝ)) = 2 := by
      have h4 : Vec3.normSq (⟨2, 0, 0⟩ : Vec3 ℝ) = 2 ^ 2 := by norm_num [Vec3.normSq]
      rw [h4, Real.sqrt_sq (by norm_num)]
    rw [euclidDistToPlane, h2, planeProjectionMaxDist]
    rw [show |Vec3.dot (⟨2, 0, 0⟩ : Vec3 ℝ) ((⟨3/2, 0, 0⟩ : Vec3 ℝ) - ⟨0, 0, 0⟩)| = 3 by
      rw [abs_of_nonneg] <;> norm_num [Vec3.dot]]
    norm_num

/- ------------------------------------------------------------------ -/
/- Neck cross-section search: objectives and search modes.             -/
/- ------------------------------------------------------------------ -/

/-- Columnwise mean `points.mean(0)` of a list of 3-vectors.  On the empty
list Lean's division-by-zero convention yields the zero vector (numpy would
produce nan); no theorem below depends on the empty case. -/
noncomputable def vmean (l : List (Vec3 ℝ)) : Vec3 ℝ :=
  ⟨(l.map Vec3.x).sum / l.length, (l.map Vec3.y).sum / l.length,
   (l.map Vec3.z).sum / l.length⟩

/-- `NeckMinXSectionFit._objFunc` (lines 937-984), active `method == 4`
branch: with `P = X[:3]`, `N = X[3:]`, footprint by `projectClosePoints`,
and `R` the distances of the footprint points from `plane.P`, the value is
`R.mean() + sqrt(((plane.P - planePoints.mean(0))**2).sum())`. -/
noncomputable def objFunc (dataPoints : List (Vec3 ℝ)) (X : Vec3 ℝ × Vec3 ℝ) : ℝ :=
  let P := X.1
  let N := X.2
  let plane := Plane3D.mkNP N P
  let planePoints := (plane.projectClosePoints dataPoints planeProjectionMaxDist).1
  let R := planePoints.map fun q => Real.sqrt (Vec3.normSq (q - plane.P))
  R.sum / R.length + Real.sqrt (Vec3.normSq (plane.P - vmean planePoints))

/-- `NeckMinXSectionFit._objFuncFixedN` (lines 1035-1079), active
`method == 4` branch: the plain SUM `R.sum()` of the footprint distances from
`plane.P` — no mean normalization and no eccentricity term. -/
noncomputable def objFuncFixedN (dataPoints : List (Vec3 ℝ)) (planeN P : Vec3 ℝ) : ℝ :=
  let plane := Plane3D.mkNP planeN P
  let planePoints := (plane.projectClosePoints dataPoints planeProjectionMaxDist).1
  (planePoints.map fun q => Real.sqrt (Vec3.normSq (q - plane.P))).sum

/-- The objective named by the specification, written from the spec's words:
`mean(||projectedPoints - planePoint||) + ||planePoint - centroid(projectedPoints)||`
over the footprint of the candidate plane.  Kept separate from the source
translations above so that the two can be compared. -/
noncomputable def specNeckObjective (dataPoints : List (Vec3 ℝ)) (P N : Vec3 ℝ) : ℝ :=
  let projectedPoints :=
    ((Plane3D.mkNP N P).projectClosePoints dataPoints planeProjectionMaxDist).1
  (projectedPoints.map fun q => euclidDist q P).sum / projectedPoints.length
    + euclidDist P (vmean projectedPoints)

/-- Modelled from the spec: `geoprimitives.LineElement3D(p0, p1).eval(t)` —
the segment from `p0` to `p1` parametrized by `t` in `[0, 1]`; the
geoprimitives module is not among the repository source files. -/
noncomputable def lineEval (p0 p1 : Vec3 ℝ) (t : ℝ) : Vec3 ℝ := p0 + t • (p1 - p0)

/-- `_norm` (lines 27-28): componentwise division of `v` by
`sqrt((v**2).sum())`. -/
noncomputable def vnorm (v : Vec3 ℝ) : Vec3 ℝ := Vec3.vdiv v (Real.sqrt (Vec3.normSq v))

/-- The one-dimensional objective `obj` defined inside
`NeckMinXSectionFit.findNeckMinAlongLine` (lines 920-922): the fixed-normal
objective evaluated at `line.eval(x)` with normal `_norm(p1 - p0)`. -/
noncomputable def alongLineObj (dataPoints : List (Vec3 ℝ)) (p0 p1 : Vec3 ℝ) (t : ℝ) : ℝ :=
  objFuncFixedN dataPoints (vnorm (p1 - p0)) (lineEval p0 p1 t)

/-- `NeckMinXSectionFit.findNeckMinAlongLine` (lines 912-932).  The
derivative-free scipy `fmin` is an external numerical capability (spec 9
prescribes abstracting it); it is passed in as `minimize1`, applied to the
objective and the source's seed `0.5`. -/
noncomputable def findNeckMinAlongLine (minimize1 : (ℝ → ℝ) → ℝ → ℝ)
    (dataPoints : List (Vec3 ℝ)) (p0 p1 : Vec3 ℝ) : List (Vec3 ℝ) × Vec3 ℝ :=
  let planeN := vnorm (p1 - p0)
  let bestT := minimize1 (alongLineObj dataPoints p0 p1) 0.5
  let bestP := lineEval p0 p1 bestT
  let finalPlane := Plane3D.mkNP planeN bestP
  ((finalPlane.projectClosePoints dataPoints planeProjectionMaxDist).1, bestP)

/-- `NeckMinXSectionFit.findNeckMin` (lines 826-859): 6-parameter search from
the seed `hstack((initialP, initialN))`, external minimizer passed in as
`minimize6`; returns the footprint of the final plane together with the
final plane point and normal. -/
noncomputable def findNeckMin
    (minimize6 : (Vec3 ℝ × Vec3 ℝ → ℝ) → Vec3 ℝ × Vec3 ℝ → Vec3 ℝ × Vec3 ℝ)
    (dataPoints : List (Vec3 ℝ)) (initialP initialN : Vec3 ℝ) :
    List (Vec3 ℝ) × Vec3 ℝ × Vec3 ℝ :=
  let X := minimize6 (objFunc dataPoints) (initialP, initialN)
  let finalPlane := Plane3D.mkNP X.2 X.1
  ((finalPlane.projectClosePoints dataPoints planeProjectionMaxDist).1, X.1, X.2)

/-- C3 (amended): the free search's objective `_objFunc` equals the spec
formula `mean + eccentricity`, but the line-constrained search minimizes the
plain SUM of footprint distances to the plane point, with no mean
normalization and no eccentricity term; the two modes do not minimize the
same objective. -/
theorem neck_objectives_differ (dataPoints : List (Vec3 ℝ)) (P N : Vec3 ℝ) :
    objFunc dataPoints (P, N) = specNeckObjective dataPoints P N ∧
    objFuncFixedN dataPoints N P
        = (((Plane3D.mkNP N P).projectClosePoints dataPoints planeProjectionMaxDist).1.map
            fun q => euclidDist q P).sum ∧
    ∀ p0 p1 t, alongLineObj dataPoints p0 p1 t
        = objFuncFixedN dataPoints (vnorm (p1 - p0)) (lineEval p0 p1 t) := by
  refine ⟨?_, ?_, fun p0 p1 t => rfl⟩
  · simp only [objFunc, specNeckObjective, euclidDist, Plane3D.mkNP, List.length_map]
  · simp only [objFuncFixedN, euclidDist, Plane3D.mkNP]

/-- Counterexample to C3 as stated: for the plane through the origin with
normal `(0,0,1)` and the two data points `(1,0,0)` and `(-1,0,0)` (both in
the footprint), the free-search objective evaluates to `1` while the
line-constrained objective evaluates to `2`: the two search modes do not
minimize the same quantity. -/
theorem neck_objectives_differ_cex :
    objFunc [⟨1, 0, 0⟩, ⟨-1, 0, 0⟩] ((⟨0, 0, 0⟩ : Vec3 ℝ), ⟨0, 0, 1⟩) = 1 ∧
    objFuncFixedN [⟨1, 0, 0⟩, ⟨-1, 0, 0⟩] (⟨0, 0, 1⟩ : Vec3 ℝ) ⟨0, 0, 0⟩ = 2 := by
  have h0 : ∀ p ∈ ([⟨1, 0, 0⟩, ⟨-1, 0, 0⟩] : List (Vec3 ℝ)),
      (Plane3D.mkNP (⟨0, 0, 1⟩ : Vec3 ℝ) ⟨0, 0, 0⟩).signedD p = 0 := by
    intro p hp
    rcases List.mem_cons.mp hp with h | hp2
    · subst h
      norm_num [Plane3D.signedD, Plane3D.mkNP]
    rcases List.mem_cons.mp hp2 with h | hp3
    · subst h
      norm_num [Plane3D.signedD, Plane3D.mkNP]
    · exact absurd hp3 (List.not_mem_nil p)
  have hfoot := Plane3D.proj_id_of_on_plane
    (Plane3D.mkNP (⟨0, 0, 1⟩ : Vec3 ℝ) ⟨0, 0, 0⟩) [⟨1, 0, 0⟩, ⟨-1, 0, 0⟩]
    planeProjectionMaxDist h0 (by norm_num [planeProjectionMaxDist])
  have hfoot1 : ((Plane3D.mkNP (⟨0, 0, 1⟩ : Vec3 ℝ) ⟨0, 0, 0⟩).projectClosePoints
      [⟨1, 0, 0⟩, ⟨-1, 0, 0⟩] planeProjectionMaxDist).1 = [⟨1, 0, 0⟩, ⟨-1, 0, 0⟩] := by
    rw [hfoot]
  have hmean : vmean [⟨1, 0, 0⟩, ⟨-1, 0, 0⟩] = (⟨0, 0, 0⟩ : Vec3 ℝ) := by
    simp [vmean, Vec3.eq_iff]
  constructor
  · simp only [objFunc, hfoot1, List.map_cons, List.map_nil, hmean]
    norm_num [Vec3.normSq, Plane3D.mkNP]
  · simp only [objFuncFixedN, hfoot1, List.map_cons, List.map_nil]
    norm_num [Vec3.normSq, Plane3D.mkNP]

theorem Plane3D.proj_empty_of_far {α : Type} [LinearOrderedField α] (pl : Plane3D α)
    (ps : List (Vec3 α)) (maxDist : α)
    (h : ∀ p ∈ ps, ¬ ((pl.distanceToPoint p).1 < maxDist)) :
    pl.projectClosePoints ps maxDist = ([], []) := by
  have hcp : pl.closePairs ps maxDist = [] := by
    apply List.filter_eq_nil_iff.mpr
    intro ip hip
    simpa [decide_eq_true_eq] using h ip.2 (List.snd_mem_of_mem_enum hip)
  simp [Plane3D.projectClosePoints, hcp]

/-- `FemurMeasurements._findNeckPlaneMinXSection` (lines 262-312), from the
two search calls (lines 287 and 299) onwards.  The preamble — `searchP0` and
`searchP1` computed from the rough axis via the external `Line3D.findClosest`
and `Line3D.eval`, and the mean `neckMeanP` of the `neckElems` evaluation
points — is supplied through the arguments.  `dataLongEP` stands for the
`neckLongElems` evaluation points held by the one `NeckMinXSectionFit`
object, which BOTH searches project against; `initialNeckA` is the rough
neck axis direction.  Lines 303-311: if the free search's footprint is
empty (`len(planePoints2)==0`), the function returns the rough axis
direction as normal together with the line-constrained plane point and
footprint; otherwise the free search's normal, point and footprint. -/
noncomputable def findNeckPlaneMinXSection
    (minimize1 : (ℝ → ℝ) → ℝ → ℝ)
    (minimize6 : (Vec3 ℝ × Vec3 ℝ → ℝ) → Vec3 ℝ × Vec3 ℝ → Vec3 ℝ × Vec3 ℝ)
    (dataLongEP : List (Vec3 ℝ)) (searchP0 searchP1 neckMeanP initialNeckA : Vec3 ℝ) :
    Vec3 ℝ × Vec3 ℝ × List (Vec3 ℝ) :=
  let r1 := findNeckMinAlongLine minimize1 dataLongEP searchP0 searchP1
  let r2 := findNeckMin minimize6 dataLongEP neckMeanP initialNeckA
  if r2.1.length = 0 then (initialNeckA, r1.2, r1.1)
  else (r2.2.2, r2.2.1, r2.1)

/-- C1 (amended): whenever the unconstrained search returns zero footprint
points, `_findNeckPlaneMinXSection` returns the line-constrained search's
footprint and plane point with the initial axis direction as normal; the
returned footprint then IS the line-constrained footprint, which itself
carries no non-emptiness guarantee. -/
theorem neck_xsection_fallback
    (minimize1 : (ℝ → ℝ) → ℝ → ℝ)
    (minimize6 : (Vec3 ℝ × Vec3 ℝ → ℝ) → Vec3 ℝ × Vec3 ℝ → Vec3 ℝ × Vec3 ℝ)
    (dataLongEP : List (Vec3 ℝ)) (searchP0 searchP1 neckMeanP initialNeckA : Vec3 ℝ)
    (hEmpty : (findNeckMin minimize6 dataLongEP neckMeanP initialNeckA).1 = []) :
    findNeckPlaneMinXSection minimize1 minimize6 dataLongEP searchP0 searchP1
        neckMeanP initialNeckA
      = (initialNeckA,
         (findNeckMinAlongLine minimize1 dataLongEP searchP0 searchP1).2,
         (findNeckMinAlongLine minimize1 dataLongEP searchP0 searchP1).1) := by
  simp [findNeckPlaneMinXSection, hEmpty]

/-- A concrete stand-in for the external 1-D minimizer in the C1
counterexample: it reports the optimum `1/2` (the external `fmin` may land
anywhere, so any concrete return value instantiates the interface). -/
noncomputable def cexMin1 : (ℝ → ℝ) → ℝ → ℝ := fun _ _ => 1/2

/-- A concrete stand-in for the external 6-parameter minimizer in the C1
counterexample: it reports the plane point `(0,0,0)` with normal `(1,0,0)`. -/
noncomputable def cexMin6 : (Vec3 ℝ × Vec3 ℝ → ℝ) → Vec3 ℝ × Vec3 ℝ → Vec3 ℝ × Vec3 ℝ :=
  fun _ _ => (⟨0, 0, 0⟩, ⟨1, 0, 0⟩)

theorem cex_findNeckMin_empty :
    findNeckMin cexMin6 [⟨5, 0, 0⟩] ⟨5, 0, 0⟩ ⟨1, 0, 0⟩
      = ([], (⟨0, 0, 0⟩ : Vec3 ℝ), (⟨1, 0, 0⟩ : Vec3 ℝ)) := by
  have hfar : ∀ p ∈ ([⟨5, 0, 0⟩] : List (Vec3 ℝ)),
      ¬ (((Plane3D.mkNP (⟨1, 0, 0⟩ : Vec3 ℝ) ⟨0, 0, 0⟩).distanceToPoint p).1
        < planeProjectionMaxDist) := by
    intro p hp
    rcases List.mem_cons.mp hp with h | h
    · subst h
      show ¬ (|(Plane3D.mkNP (⟨1, 0, 0⟩ : Vec3 ℝ) ⟨0, 0, 0⟩).signedD ⟨5, 0, 0⟩| < _)
      rw [not_lt, show (Plane3D.mkNP (⟨1, 0, 0⟩ : Vec3 ℝ) ⟨0, 0, 0⟩).signedD ⟨5, 0, 0⟩ = 5 by
        norm_num [Plane3D.signedD, Plane3D.mkNP], abs_of_nonneg (by norm_num : (0:ℝ) ≤ 5)]
      norm_num [planeProjectionMaxDist]
    · exact absurd h (List.not_mem_nil p)
  simp only [findNeckMin, cexMin6]
  rw [Plane3D.proj_empty_of_far _ _ _ hfar]

theorem cex_findNeckMinAlongLine_val :
    findNeckMinAlongLine cexMin1 [⟨5, 0, 0⟩] ⟨0, 0, 0⟩ ⟨1, 0, 0⟩
      = ([], (⟨1/2, 0, 0⟩ : Vec3 ℝ)) := by
  have hvnorm : vnorm ((⟨1, 0, 0⟩ : Vec3 ℝ) - ⟨0, 0, 0⟩) = ⟨1, 0, 0⟩ := by
    simp only [vnorm, Vec3.vdiv, Vec3.eq_iff]
    norm_num [Vec3.normSq]
  have hbestP : lineEval ⟨0, 0, 0⟩ ⟨1, 0, 0⟩ ((1 : ℝ)/2) = ⟨1/2, 0, 0⟩ := by
    simp only [lineEval, Vec3.eq_iff]
    norm_num
  have hfar : ∀ p ∈ ([⟨5, 0, 0⟩] : List (Vec3 ℝ)),
      ¬ (((Plane3D.mkNP (⟨1, 0, 0⟩ : Vec3 ℝ) ⟨1/2, 0, 0⟩).distanceToPoint p).1
        < planeProjectionMaxDist) := by
    intro p hp
    rcases List.mem_cons.mp hp with h | h
    · subst h
      show ¬ (|(Plane3D.mkNP (⟨1, 0, 0⟩ : Vec3 ℝ) ⟨1/2, 0, 0⟩).signedD ⟨5, 0, 0⟩| < _)
      rw [not_lt, show (Plane3D.mkNP (⟨1, 0, 0⟩ : Vec3 ℝ) ⟨1/2, 0, 0⟩).signedD ⟨5, 0, 0⟩ = 9/2 by
        norm_num [Plane3D.signedD, Plane3D.mkNP], abs_of_nonneg (by norm_num : (0:ℝ) ≤ 9/2)]
      norm_num [planeProjectionMaxDist]
    · exact absurd h (List.not_mem_nil p)
  simp only [findNeckMinAlongLine, cexMin1, hvnorm, hbestP]
  rw [Plane3D.proj_empty_of_far _ _ _ hfar]

/-- Counterexample to C1's non-emptiness assertion: with the single data
point `(5,0,0)`, concrete instantiations of the two external minimizers, and
the source's fallback logic, BOTH searches produce empty footprints, so
`_findNeckPlaneMinXSection` returns an empty footprint point set. -/
theorem neck_xsection_fallback_cex :
    (findNeckPlaneMinXSection cexMin1 cexMin6 [⟨5, 0, 0⟩] ⟨0, 0, 0⟩ ⟨1, 0, 0⟩
        ⟨5, 0, 0⟩ ⟨1, 0, 0⟩).2.2 = [] := by
  simp [findNeckPlaneMinXSection, cex_findNeckMin_empty, cex_findNeckMinAlongLine_val]

/-- Witness for C1 (amended) at the concrete counterexample inputs, where
the unconstrained footprint is indeed empty. -/
theorem neck_xsection_fallback_witness :
    (findNeckMin cexMin6 [⟨5, 0, 0⟩] ⟨5, 0, 0⟩ ⟨1, 0, 0⟩).1 = [] ∧
    findNeckPlaneMinXSection cexMin1 cexMin6 [⟨5, 0, 0⟩] ⟨0, 0, 0⟩ ⟨1, 0, 0⟩
        ⟨5, 0, 0⟩ ⟨1, 0, 0⟩
      = (⟨1, 0, 0⟩,
         (findNeckMinAlongLine cexMin1 [⟨5, 0, 0⟩] ⟨0, 0, 0⟩ ⟨1, 0, 0⟩).2,
         (findNeckMinAlongLine cexMin1 [⟨5, 0, 0⟩] ⟨0, 0, 0⟩ ⟨1, 0, 0⟩).1) :=
  ⟨by rw [cex_findNeckMin_empty],
   neck_xsection_fallback cexMin1 cexMin6 [⟨5, 0, 0⟩] ⟨0, 0, 0⟩ ⟨1, 0, 0⟩ ⟨5, 0, 0⟩ ⟨1, 0, 0⟩
     (by rw [cex_findNeckMin_empty])⟩

/- ------------------------------------------------------------------ -/
/- Neck width from the cached footprint (calcNeckWidth).               -/
/- ------------------------------------------------------------------ -/

/-- One step of the first-occurrence z-maximum scan: a later element
replaces the current best only when strictly greater, as numpy's
`argmax` keeps the first index attaining the maximum. -/
def pickMaxZStep {α : Type} [LinearOrder α] (acc : Option (Vec3 α)) (v : Vec3 α) :
    Option (Vec3 α) :=
  match acc with
  | none => some v
  | some w => if w.z < v.z then some v else some w

/-- One step of the first-occurrence z-minimum scan (`argmin`). -/
def pickMinZStep {α : Type} [LinearOrder α] (acc : Option (Vec3 α)) (v : Vec3 α) :
    Option (Vec3 α) :=
  match acc with
  | none => some v
  | some w => if v.z < w.z then some v else some w

/-- The footprint point of maximal z-coordinate (first occurrence), i.e.
`planePoints[planePoints[:,2].argmax()]`. -/
def pickMaxZ {α : Type} [LinearOrder α] (l : List (Vec3 α)) : Option (Vec3 α) :=
  l.foldl pickMaxZStep none

/-- The footprint point of minimal z-coordinate (first occurrence), i.e.
`planePoints[planePoints[:,2].argmin()]`. -/
def pickMinZ {α : Type} [LinearOrder α] (l : List (Vec3 α)) : Option (Vec3 α) :=
  l.foldl pickMinZStep none

theorem pickFold_some {β : Type} (step : Option β → β → Option β)
    (hstep : ∀ w v, ∃ u, step (some w) v = some u) :
    ∀ (t : List β) (w : β), ∃ u, t.foldl step (some w) = some u := by
  intro t
  induction t with
  | nil => exact fun w => ⟨w, rfl⟩
  | cons b t ih =>
    intro w
    obtain ⟨u, hu⟩ := hstep w b
    simpa [List.foldl_cons, hu] using ih u

theorem pickMaxZ_some {α : Type} [LinearOrder α] (l : List (Vec3 α)) (h : l ≠ []) :
    ∃ u, pickMaxZ l = some u := by
  cases l with
  | nil => exact absurd rfl h
  | cons a t =>
    show ∃ u, t.foldl pickMaxZStep (pickMaxZStep none a) = some u
    rw [show pickMaxZStep (α := α) none a = some a from rfl]
    refine pickFold_some pickMaxZStep ?_ t a
    intro w v
    by_cases hc : w.z < v.z
    · exact ⟨v, by simp [pickMaxZStep, hc]⟩
    · exact ⟨w, by simp [pickMaxZStep, hc]⟩

theorem pickMinZ_some {α : Type} [LinearOrder α] (l : List (Vec3 α)) (h : l ≠ []) :
    ∃ u, pickMinZ l = some u := by
  cases l with
  | nil => exact absurd rfl h
  | cons a t =>
    show ∃ u, t.foldl pickMinZStep (pickMinZStep none a) = some u
    rw [show pickMinZStep (α := α) none a = some a from rfl]
    refine pickFold_some pickMinZStep ?_ t a
    intro w v
    by_cases hc : v.z < w.z
    · exact ⟨v, by simp [pickMinZStep, hc]⟩
    · exact ⟨w, by simp [pickMinZStep, hc]⟩

/-- `FemurMeasurements.calcNeckWidth` (lines 358-411), from the two fresh
search results onwards.  The fresh cross-section searches (line-constrained
result `search1` and free result `search2`, both produced against external
minimizers) are selected between at lines 390-395 — but line 397 then
overwrites `planePoints` with `self.neckAxis._planePoints`, the footprint
cached on the neck axis by `calcNeckAxis` (line 256).  The stored value is
the distance between the cached footprint points of maximal and minimal
z-coordinate; `none` models numpy's error on `argmax` of an empty array. -/
noncomputable def calcNeckWidth (cachedPlanePoints : List (Vec3 ℚ))
    (search1 : List (Vec3 ℚ) × Vec3 ℚ) (search2 : List (Vec3 ℚ) × Vec3 ℚ × Vec3 ℚ) :
    Option ℝ :=
  let _fresh :=
    if search2.1.length = 0 then (search1.1, search1.2) else (search2.1, search2.2.1)
  let planePoints := cachedPlanePoints
  match pickMaxZ planePoints, pickMinZ planePoints with
  | some neckSup, some neckInf =>
      some (Real.sqrt ((Vec3.normSq (neckSup - neckInf) : ℚ) : ℝ))
  | _, _ => none

/-- C10: the neck width is computed from the footprint cached on the neck
axis by `calcNeckAxis`: it equals the distance between the cached footprint
points of maximal and minimal z-coordinate, and it is unchanged under ANY
outcome of the fresh cross-section search `calcNeckWidth` performs. -/
theorem calcNeckWidth_uses_cached (cached : List (Vec3 ℚ))
    (s1 s1' : List (Vec3 ℚ) × Vec3 ℚ) (s2 s2' : List (Vec3 ℚ) × Vec3 ℚ × Vec3 ℚ)
    (hne : cached ≠ []) :
    calcNeckWidth cached s1 s2 = calcNeckWidth cached s1' s2' ∧
    ∃ neckSup neckInf, pickMaxZ cached = some neckSup ∧ pickMinZ cached = some neckInf ∧
      calcNeckWidth cached s1 s2
        = some (Real.sqrt ((Vec3.normSq (neckSup - neckInf) : ℚ) : ℝ)) := by
  refine ⟨rfl, ?_⟩
  obtain ⟨u, hu⟩ := pickMaxZ_some cached hne
  obtain ⟨v, hv⟩ := pickMinZ_some cached hne
  exact ⟨u, v, hu, hv, by simp [calcNeckWidth, hu, hv]⟩

/-- Witness for C10 with a concrete cached footprint and two different fresh
search outcomes. -/
theorem calcNeckWidth_uses_cached_witness :
    ([⟨0, 0, 1⟩, ⟨3, 0, 0⟩] : List (Vec3 ℚ)) ≠ [] ∧
    (calcNeckWidth [⟨0, 0, 1⟩, ⟨3, 0, 0⟩] ([], ⟨0, 0, 0⟩) ([], ⟨0, 0, 0⟩, ⟨0, 0, 0⟩)
        = calcNeckWidth [⟨0, 0, 1⟩, ⟨3, 0, 0⟩] ([⟨9, 9, 9⟩], ⟨1, 1, 1⟩)
            ([⟨2, 2, 2⟩], ⟨3, 3, 3⟩, ⟨4, 4, 4⟩) ∧
     ∃ neckSup neckInf,
       pickMaxZ ([⟨0, 0, 1⟩, ⟨3, 0, 0⟩] : List (Vec3 ℚ)) = some neckSup ∧
       pickMinZ ([⟨0, 0, 1⟩, ⟨3, 0, 0⟩] : List (Vec3 ℚ)) = some neckInf ∧
       calcNeckWidth [⟨0, 0, 1⟩, ⟨3, 0, 0⟩] ([], ⟨0, 0, 0⟩) ([], ⟨0, 0, 0⟩, ⟨0, 0, 0⟩)
         = some (Real.sqrt ((Vec3.normSq (neckSup - neckInf) : ℚ) : ℝ))) :=
  ⟨by simp,
   calcNeckWidth_uses_cached [⟨0, 0, 1⟩, ⟨3, 0, 0⟩] ([], ⟨0, 0, 0⟩)
     ([⟨9, 9, 9⟩], ⟨1, 1, 1⟩) ([], ⟨0, 0, 0⟩, ⟨0, 0, 0⟩)
     ([⟨2, 2, 2⟩], ⟨3, 3, 3⟩, ⟨4, 4, 4⟩) (by simp)⟩

/- ------------------------------------------------------------------ -/
/- The measurements mapping, the shaft-axis sign convention, the sweep. -/
/- ------------------------------------------------------------------ -/

/-- The values stored in the `measurements` dictionary: axis measurements
hold a (direction, point-on-line) pair, scalar measurements a number. -/
inductive MeasValue
  | axis (a b : Vec3 ℚ)
  | scalar (v : ℚ)
deriving DecidableEq

/-- The `measurements` dictionary as an association list. -/
abbrev MeasMap : Type := List (String × MeasValue)

/-- The sign normalization in `FemurMeasurements.calcShaftAxis` (lines
221-222): the fitted direction is multiplied by `-1.0` in place when its
z-component is negative. -/
def calcShaftAxisDir (fittedA : Vec3 ℚ) : Vec3 ℚ :=
  if fittedA.z < 0 then (-1 : ℚ) • fittedA else fittedA

/-- `FemurMeasurements.calcShaftAxis` (lines 207-225) with the least-squares
fit abstracted: `FT.fitAxis3D` lives in the external geoprimitives module,
so its fitted direction and point `(fittedA, fittedB)` are inputs here; the
method sign-normalizes the direction and stores the measurement under
'shaft_axis'. -/
def calcShaftAxis (fittedA fittedB : Vec3 ℚ) (ms : MeasMap) : MeasMap :=
  ("shaft_axis", MeasValue.axis (calcShaftAxisDir fittedA) fittedB) :: ms

/-- C2: after `calcShaftAxis` returns, the direction stored under
'shaft_axis' has a non-negative z-component, whatever direction the external
least-squares fit produced. -/
theorem shaft_axis_z_nonneg (fittedA fittedB : Vec3 ℚ) (ms : MeasMap) :
    ∃ dir, (calcShaftAxis fittedA fittedB ms).lookup "shaft_axis"
        = some (MeasValue.axis dir fittedB) ∧ 0 ≤ dir.z := by
  refine ⟨calcShaftAxisDir fittedA, ?_, ?_⟩
  · simp [calcShaftAxis, List.lookup]
  · rw [calcShaftAxisDir]
    rcases lt_or_le fittedA.z 0 with h | h
    · rw [if_pos h]
      simp only [Vec3.smul_z]
      linarith
    · rw [if_neg (not_lt.mpr h)]
      exact h

/-- The fatal error kinds of the measurement engine (spec section 7). -/
inductive MeasError
  | configurationError
  | geometricFitError
deriving DecidableEq

/-- `FemurMeasurements.calcMeasurements` (lines 172-184): the sweep calls the
twelve `calc*` methods in sequence with NO exception handler.  Each method is
abstracted to its outcome — a value stored under its name, or a raised
error — since the methods' numerics run through external scipy fits; Python
exception propagation is the `Except.error` short-circuit. -/
def calcMeasurements : List (String × Except MeasError MeasValue) → MeasMap →
    Except MeasError MeasMap
  | [], ms => Except.ok ms
  | (_, Except.error e) :: _, _ => Except.error e
  | (name, Except.ok v) :: rest, ms => calcMeasurements rest ((name, v) :: ms)

/-- C5 (amended): a fatal error raised while computing one measurement ABORTS
the sweep: when every measurement before the failing one succeeds,
`calcMeasurements` propagates that error; the later measurements are never
computed and no name-to-value mapping is returned. -/
theorem calcMeasurements_error_aborts (pre post : List (String × Except MeasError MeasValue))
    (name : String) (e : MeasError) (ms : MeasMap)
    (hpre : ∀ p ∈ pre, ∃ v, p.2 = Except.ok v) :
    calcMeasurements (pre ++ (name, Except.error e) :: post) ms = Except.error e := by
  revert hpre
  induction pre generalizing ms with
  | nil => exact fun _ => rfl
  | cons a t ih =>
    intro hpre
    obtain ⟨n, r⟩ := a
    obtain ⟨v, hv⟩ := hpre (n, r) (List.mem_cons_self _ _)
    simp only at hv
    subst hv
    exact ih ((n, v) :: ms) (fun p hp => hpre p (List.mem_cons_of_mem _ hp))

/-- Witness for C5 (amended): a successful first step, then a configuration
error, then a step that is never reached. -/
theorem calcMeasurements_error_aborts_witness :
    (∀ p ∈ ([("head_diameter", Except.ok (MeasValue.scalar 50))] :
        List (String × Except MeasError MeasValue)),
        ∃ v, p.2 = Except.ok v) ∧
    calcMeasurements
        ([("head_diameter", Except.ok (MeasValue.scalar 50))] ++
          ("neck_width", Except.error MeasError.configurationError) ::
            [("neck_shaft_angle", Except.ok (MeasValue.scalar 2))]) []
      = Except.error MeasError.configurationError :=
  ⟨by
    intro p hp
    rcases List.mem_cons.mp hp with h | h
    · subst h
      exact ⟨MeasValue.scalar 50, rfl⟩
    · exact absurd h (List.not_mem_nil p),
   calcMeasurements_error_aborts
     [("head_diameter", Except.ok (MeasValue.scalar 50))]
     [("neck_shaft_angle", Except.ok (MeasValue.scalar 2))]
     "neck_width" MeasError.configurationError []
     (by
       intro p hp
       rcases List.mem_cons.mp hp with h | h
       · subst h
         exact ⟨MeasValue.scalar 50, rfl⟩
       · exact absurd h (List.not_mem_nil p))⟩

/-- Counterexample to C5 as stated: a sweep whose second measurement raises a
geometric fit error propagates the error — the sweep is aborted, the third
measurement is never computed, and no name-to-value mapping is produced. -/
theorem calcMeasurements_aborts_cex :
    calcMeasurements
      [("head_diameter", Except.ok (MeasValue.scalar 50)),
       ("neck_width", Except.error MeasError.geometricFitError),
       ("neck_shaft_angle", Except.ok (MeasValue.scalar 2))] []
      = Except.error MeasError.geometricFitError := rfl

/- ------------------------------------------------------------------ -/
/- Measurement persistence (saveMeasurements / loadMeasurements).      -/
/- ------------------------------------------------------------------ -/

/-- Python 3 runtime payloads: a text string or a binary byte payload. -/
inductive PyData
  | str (s : String)
  | bytes (n : ℕ)
deriving DecidableEq

/-- The runtime error raised by a Python 3 text-mode write of bytes. -/
inductive PyError
  | typeError
deriving DecidableEq

/-- The mode a Python file object is opened with. -/
inductive FileMode
  | text
  | binary
deriving DecidableEq

/-- Modelled from the spec: writing through a Python 3 file handle (the io
layer is external to the repository sources).  A handle opened in text mode
— `open(filename, 'w')` — accepts only `str`; passing a `bytes` payload
raises `TypeError`.  The repository's setup.py declares Python 3.5 support. -/
def fileWrite (mode : FileMode) (data : PyData) : Except PyError Unit :=
  match mode, data with
  | FileMode.text, PyData.bytes _ => Except.error PyError.typeError
  | FileMode.text, PyData.str _ => Except.ok ()
  | FileMode.binary, _ => Except.ok ()

/-- Modelled from the spec: `pickle.dump(obj, f, protocol=2)` — protocol 2
is a binary pickle protocol, so the emitted payload is `bytes`; the payload
content is abstracted to its length. -/
def pickleDumpProtocol2 (ms : MeasMap) : PyData := PyData.bytes ms.length

/-- `FemurMeasurements.saveMeasurements` (lines 152-154): opens the target
file in text mode `'w'` and pickles the measurements mapping into it with
`protocol=2`. -/
def saveMeasurements (ms : MeasMap) : Except PyError Unit :=
  fileWrite FileMode.text (pickleDumpProtocol2 ms)

/-- C8 (code bug): under the Python 3 support the repository declares,
`saveMeasurements` raises `TypeError` for EVERY measurement mapping — the
text-mode handle rejects the binary protocol-2 pickle payload — so the
save-then-load round trip never yields a mapping at all. -/
theorem saveMeasurements_always_fails (ms : MeasMap) :
    saveMeasurements ms = Except.error PyError.typeError := rfl

/- ------------------------------------------------------------------ -/
/- Ownership of the GeometricField (constructor deep copy).            -/
/- ------------------------------------------------------------------ -/

/-- The mutable geometric-field payload: its per-node 3D coordinates. -/
abbrev GFData : Type := List (Vec3 ℚ)

/-- A reference heap: object identities are natural numbers; `next` is the
first unallocated identity (every live reference is below `next`). -/
structure Heap where
  store : ℕ → GFData
  next : ℕ

/-- An in-place update of the object behind reference `r` — the shape of any
mutating `GeometricField` method call. -/
def heapWrite (h : Heap) (r : ℕ) (g : GFData) : Heap :=
  ⟨fun i => if i = r then g else h.store i, h.next⟩

/-- Modelled from the spec: `copy.deepcopy` (Python stdlib, external to the
sources) allocates a fresh, independent object carrying the same payload and
returns its reference. -/
def deepcopy (h : Heap) (r : ℕ) : Heap × ℕ :=
  (⟨fun i => if i = h.next then h.store r else h.store i, h.next + 1⟩, h.next)

/-- The field-holding part of a `FemurMeasurements` instance: the reference
to the `GeometricField` it owns. -/
structure FMState where
  gfRef : ℕ

/-- `FemurMeasurements.__init__` (lines 122-147) with a non-None field:
`self.GF = copy.deepcopy(GF)` — the instance keeps the fresh copy's
reference, never the caller's. -/
def femurInit (h : Heap) (callerGF : ℕ) : Heap × FMState :=
  ((deepcopy h callerGF).1, ⟨(deepcopy h callerGF).2⟩)

/-- `FemurMeasurements.calcXYAxes` with `alignGF=True` (lines 330-338):
`self.GF.transformAffine(...)` mutates the geometry behind the instance's
reference in place; the affine map itself is the external GeometricField
method, abstracted as `f`. -/
def calcXYAxesAlign (h : Heap) (st : FMState) (f : GFData → GFData) : Heap :=
  heapWrite h st.gfRef (f (h.store st.gfRef))

/-- C9: the constructor deep-copies the caller's GeometricField, so neither
construction, nor the aligning transform of `calcXYAxes(alignGF=True)`, nor
any other in-place write through the instance's reference ever changes the
caller's object. -/
theorem femur_instance_never_mutates_caller (h : Heap) (callerGF : ℕ)
    (href : callerGF < h.next) (f : GFData → GFData) (g : GFData) :
    (femurInit h callerGF).2.gfRef ≠ callerGF ∧
    (femurInit h callerGF).1.store callerGF = h.store callerGF ∧
    (calcXYAxesAlign (femurInit h callerGF).1 (femurInit h callerGF).2 f).store callerGF
      = h.store callerGF ∧
    (heapWrite (femurInit h callerGF).1 (femurInit h callerGF).2.gfRef g).store callerGF
      = h.store callerGF := by
  have hne : callerGF ≠ h.next := by omega
  refine ⟨fun hc => hne hc.symm, ?_, ?_, ?_⟩ <;>
    simp [femurInit, deepcopy, calcXYAxesAlign, heapWrite, hne]

/-- Witness for C9 at a concrete one-object heap. -/
theorem femur_instance_never_mutates_caller_witness :
    (0 : ℕ) < (Heap.mk (fun _ => []) 1).next ∧
    ((femurInit (Heap.mk (fun _ => []) 1) 0).2.gfRef ≠ 0 ∧
     (femurInit (Heap.mk (fun _ => []) 1) 0).1.store 0
        = (Heap.mk (fun _ => ([] : GFData)) 1).store 0 ∧
     (calcXYAxesAlign (femurInit (Heap.mk (fun _ => []) 1) 0).1
          (femurInit (Heap.mk (fun _ => []) 1) 0).2 id).store 0
        = (Heap.mk (fun _ => ([] : GFData)) 1).store 0 ∧
     (heapWrite (femurInit (Heap.mk (fun _ => []) 1) 0).1
          (femurInit (Heap.mk (fun _ => []) 1) 0).2.gfRef [⟨1, 2, 3⟩]).store 0
        = (Heap.mk (fun _ => ([] : GFData)) 1).store 0) :=
  ⟨by norm_num,
   femur_instance_never_mutates_caller (Heap.mk (fun _ => []) 1) 0 (by norm_num) id [⟨1, 2, 3⟩]⟩
